import Mathlib

/-!
Verification of the persistent auto-reconnecting WebSocket client of the
hypersdk repository (src/hypercore/ws.rs): the connection supervisor loop
(function connection), the frame-decoding stream wrapper (Stream::poll-next),
the exponential backoff computation, the subscription registry and the
liveness monitor.  The supervisor loop is embedded as a deterministic step
function over an explicit state, driven by an input describing what the
environment (socket, timer, command channel) delivers at each await point;
the events pushed to the consumer and the directives written to the wire are
collected as lists.
-/

namespace HypercoreWS

/-- Modelled from the spec: the Subscription vocabulary lives in
src/hypercore/types.rs, which is not part of the sources given here.  The
spec describes a closed tagged variant with decidable equality and a stable
hash so the registry can dedupe; we model a representative set of tags
(per-symbol trades, top-of-book, candles, all-mids, per-account order
updates and fills). -/
inductive Subscription where
  | Trades (coin : String)
  | L2Book (coin : String)
  | Candle (coin : String) (interval : String)
  | AllMids (dex : Option String)
  | OrderUpdates (user : String)
  | UserFills (user : String)
  deriving DecidableEq

/-- Outbound directives (Outgoing in src/hypercore/types.rs; the four
constructors used by ws.rs: Subscribe, Unsubscribe, Ping, Pong). -/
inductive Outgoing where
  | Subscribe (subscription : Subscription)
  | Unsubscribe (subscription : Subscription)
  | Ping
  | Pong
  deriving DecidableEq

/-- Modelled from the spec: the decoded inbound vocabulary (Incoming in
src/hypercore/types.rs, not part of the given sources): one variant per feed
type plus Ping, Pong, SubscriptionAck and a catch-all Unknown variant that
carries the raw payload of a frame with an unrecognized discriminator. -/
inductive Incoming where
  | Ping
  | Pong
  | SubscriptionAck
  | Trades (payload : String)
  | L2Book (payload : String)
  | Unknown (raw : String)
  deriving DecidableEq

/-- True for the two variants the supervisor consumes internally
(Incoming::Ping and Incoming::Pong in the match of the stream branch). -/
def Incoming.isInternal : Incoming → Bool
  | .Ping => true
  | .Pong => true
  | _ => false

/-- Event (ws.rs): what crosses the supervisor-to-handle channel. -/
inductive Event where
  | Connected
  | Disconnected
  | Message (msg : Incoming)
  deriving DecidableEq

/-- A raw wire frame as seen by Stream::poll-next before serde decoding.
Modelled from the spec for the decoding outcomes: frames whose discriminator
is recognized decode to the matching variant, a well-formed frame with an
unrecognized discriminator decodes to Unknown, and a malformed payload fails
to decode at all. -/
inductive Frame where
  | ping
  | pong
  | subAck
  | trades (payload : String)
  | l2book (payload : String)
  | unrecognized (raw : String)
  | malformed (raw : String)
  deriving DecidableEq

/-- Modelled from the spec: serde decoding of one frame payload into the
Incoming vocabulary (serde_json::from_slice in ws.rs line 183).  An
unrecognized discriminator yields the catch-all Unknown variant; only a
malformed payload fails. -/
def decode : Frame → Option Incoming
  | .ping => some .Ping
  | .pong => some .Pong
  | .subAck => some .SubscriptionAck
  | .trades p => some (.Trades p)
  | .l2book p => some (.L2Book p)
  | .unrecognized r => some (.Unknown r)
  | .malformed _ => none

/-- Stream::poll-next (ws.rs lines 180-196): pull frames from the socket,
log and skip every frame that fails to decode, return the first one that
decodes; an exhausted socket yields none (end of stream). -/
def pollNext : List Frame → Option (Incoming × List Frame)
  | [] => none
  | f :: rest =>
    match decode f with
    | some msg => some (msg, rest)
    | none => pollNext rest

/-! ### Constants and the backoff computation (ws.rs lines 365-367, 381-383) -/

def MAX_MISSED_PONGS : Nat := 2

def MAX_RECONNECT_DELAY_MS : Nat := 5000

def INITIAL_RECONNECT_DELAY_MS : Nat := 500

/-- The backoff delay computed after a failed connect attempt
(ws.rs lines 381-382 and 398-399):
INITIAL_RECONNECT_DELAY_MS * (1u64 << reconnect_attempts),
capped with .min(MAX_RECONNECT_DELAY_MS).  Release-mode Rust semantics: the
shift amount of a u64 shift is masked to 6 bits and the multiplication
wraps, hence the explicit mod 2^64 reductions. -/
def delayMs (attempts : Nat) : Nat :=
  min ((INITIAL_RECONNECT_DELAY_MS * (2 ^ (attempts % 64))) % 2 ^ 64)
    MAX_RECONNECT_DELAY_MS

/-- reconnect_attempts.saturating_add(1) on a u32 (ws.rs lines 383, 400). -/
def nextAttempts (attempts : Nat) : Nat :=
  min (attempts + 1) (2 ^ 32 - 1)

/-- What 500ms-doubled-per-failure-capped-at-5000 would give, written from
the spec sentence, for comparison with delayMs. -/
def specDelayMs (attempts : Nat) : Nat :=
  min (500 * 2 ^ attempts) 5000

/-! ### The subscription registry

The registry is a HashSet of Subscription (ws.rs line 369); we model it as a
duplicate-free list.  insert returns true when the value was newly inserted,
remove returns true when the value was present, mirroring
HashSet::insert / HashSet::remove. -/

def regInsert (s : Subscription) (r : List Subscription) :
    Bool × List Subscription :=
  if s ∈ r then (false, r) else (true, r ++ [s])

def regRemove (s : Subscription) (r : List Subscription) :
    Bool × List Subscription :=
  if s ∈ r then (true, r.erase s) else (false, r)

/-! ### The supervisor loop (async fn connection, ws.rs lines 360-482) -/

/-- The control position of the supervisor task.  connecting covers the top
of the outer loop (about to attempt Stream::connect, including after a
backoff sleep); connected carries the missed_pongs counter of the inner
select loop; done is the task having returned (only reachable through the
command channel observing closure). -/
inductive Phase where
  | connecting
  | connected (missedPongs : Nat)
  | done
  deriving DecidableEq

/-- The mutable state of the connection function: the subscription registry
subs, the reconnect_attempts counter, and the control position. -/
structure SupState where
  subs : List Subscription
  attempts : Nat
  phase : Phase
  deriving DecidableEq

/-- State at task spawn (ws.rs lines 369-370): empty registry, zero
attempts, about to attempt the first connect. -/
def initState : SupState := ⟨[], 0, .connecting⟩

/-- What the environment delivers at one await point of the supervisor:
- connectFail: Stream::connect fails or times out (lines 377, 395);
- connectOk: connect succeeds; sendFail says, per subscription, whether the
  replay send for it fails (line 422);
- tick: the ping interval fires; pingOk is whether the ping send succeeds
  (line 433);
- streamItem: stream.next() yields a decoded message or none at end of
  stream (line 443); pongReplyOk is whether an immediate pong reply (sent
  only for an inbound Ping) would succeed — the code discards this result
  (line 450);
- cmdRecv: srx.recv() yields a command, or none when every sender has been
  dropped (line 457); sendOk is whether the resulting directive send
  succeeds. -/
inductive Input where
  | connectFail
  | connectOk (sendFail : Subscription → Bool)
  | tick (pingOk : Bool)
  | streamItem (item : Option Incoming) (pongReplyOk : Bool)
  | cmdRecv (cmd : Option (Bool × Subscription)) (sendOk : Bool)

/-- An input that delivers a subscribe/unsubscribe command from the handle. -/
def Input.isCmd : Input → Bool
  | .cmdRecv (some _) _ => true
  | _ => false

/-- Result of one supervisor step: the successor state, the events pushed to
the consumer channel, and the directives whose send was attempted on the
wire, in order. -/
structure StepOut where
  state : SupState
  events : List Event
  sent : List Outgoing
  deriving DecidableEq

/-- The replay loop after a successful (re)connect (ws.rs lines 418-426):
for every registry entry a subscribe send is attempted; a failed send is
only logged (the error list) and the loop continues with the rest. -/
def replay (sendFail : Subscription → Bool) :
    List Subscription → List Outgoing × List Subscription
  | [] => ([], [])
  | s :: rest =>
    let tail := replay sendFail rest
    (Outgoing.Subscribe s :: tail.1,
      if sendFail s then s :: tail.2 else tail.2)

/-- One step of the connection supervisor at an await point, embedding the
body of async fn connection (ws.rs lines 372-481).  Input combinations that
cannot be delivered in the given phase (the code awaits no such source
there — in particular the command channel is not polled while connecting)
leave the state unchanged and emit nothing. -/
def stepSup (st : SupState) (inp : Input) : StepOut :=
  match st.phase, inp with
  | .connecting, .connectFail =>
    -- lines 377-393 / 395-410: log, sleep delayMs st.attempts, saturating
    -- increment of reconnect_attempts, continue the outer loop
    ⟨⟨st.subs, nextAttempts st.attempts, .connecting⟩, [], []⟩
  | .connecting, .connectOk sendFail =>
    -- lines 413-429: reset reconnect_attempts, emit Connected, replay the
    -- registry (best effort), enter the select loop with missed_pongs = 0
    ⟨⟨st.subs, 0, .connected 0⟩, [Event.Connected],
      (replay sendFail st.subs).1⟩
  | .connected missed, .tick pingOk =>
    if MAX_MISSED_PONGS ≤ missed then
      -- lines 434-437: break the select loop without sending another ping;
      -- the outer loop then emits Disconnected and reconnects (479-481)
      ⟨⟨st.subs, st.attempts, .connecting⟩, [Event.Disconnected], []⟩
    else
      -- lines 439-441: send a ping; the counter is incremented only when
      -- the send succeeded, a failed ping send is otherwise ignored
      ⟨⟨st.subs, st.attempts,
          .connected (if pingOk then missed + 1 else missed)⟩, [],
        [Outgoing.Ping]⟩
  | .connected _, .streamItem none _ =>
    -- line 444: end of stream breaks the select loop; Disconnected follows
    ⟨⟨st.subs, st.attempts, .connecting⟩, [Event.Disconnected], []⟩
  | .connected missed, .streamItem (some msg) _ =>
    match msg with
    | .Pong =>
      -- lines 446-448: a pong resets the missed counter
      ⟨⟨st.subs, st.attempts, .connected 0⟩, [], []⟩
    | .Ping =>
      -- lines 449-451: reply with a pong; the send result is discarded
      ⟨⟨st.subs, st.attempts, .connected missed⟩, [], [Outgoing.Pong]⟩
    | m =>
      -- lines 452-454: every other message is forwarded to the consumer
      ⟨⟨st.subs, st.attempts, .connected missed⟩, [Event.Message m], []⟩
  | .connected _, .cmdRecv none _ =>
    -- line 458: the command channel is closed, the task returns
    ⟨⟨st.subs, st.attempts, .done⟩, [], []⟩
  | .connected missed, .cmdRecv (some (isSub, sub)) sendOk =>
    if isSub then
      let ins := regInsert sub st.subs
      if ins.1 then
        if sendOk then
          -- line 465: newly inserted, subscribe sent successfully
          ⟨⟨ins.2, st.attempts, .connected missed⟩, [],
            [Outgoing.Subscribe sub]⟩
        else
          -- lines 465-468: the send failed, break; Disconnected follows
          ⟨⟨ins.2, st.attempts, .connecting⟩, [Event.Disconnected],
            [Outgoing.Subscribe sub]⟩
      else
        -- lines 460-463: already subscribed, continue without sending
        ⟨⟨st.subs, st.attempts, .connected missed⟩, [], []⟩
    else
      let rem := regRemove sub st.subs
      if rem.1 then
        if sendOk then
          -- line 470: was present, unsubscribe sent successfully
          ⟨⟨rem.2, st.attempts, .connected missed⟩, [],
            [Outgoing.Unsubscribe sub]⟩
        else
          -- lines 470-473: the send failed, break; Disconnected follows
          ⟨⟨rem.2, st.attempts, .connecting⟩, [Event.Disconnected],
            [Outgoing.Unsubscribe sub]⟩
      else
        -- line 469: not tracked, nothing removed, nothing sent
        ⟨⟨st.subs, st.attempts, .connected missed⟩, [], []⟩
  | _, _ =>
    ⟨st, [], []⟩

/-- Run the supervisor over a list of environment inputs, concatenating the
emitted events and the attempted wire sends in order. -/
def runSup (st : SupState) : List Input → SupState × List Event × List Outgoing
  | [] => (st, [], [])
  | i :: rest =>
    let o := stepSup st i
    let r := runSup o.state rest
    (r.1, o.events ++ r.2.1, o.sent ++ r.2.2)

/-! ### Helper lemmas -/

/-- The wire sends attempted by the replay loop are exactly one Subscribe
per registry entry, whatever the per-entry send failures are. -/
lemma replay_sends (sendFail : Subscription → Bool) :
    ∀ subs : List Subscription,
      (replay sendFail subs).1 = subs.map Outgoing.Subscribe := by
  intro subs
  induction subs with
  | nil => rfl
  | cons s rest ih => simp [replay, ih]

/-- C1: Replay completeness.  From the connecting phase, a successful
connect emits exactly one Connected event and attempts exactly one
Subscribe directive per entry of the current registry, in registry order —
nothing extra, nothing missing — and this list of attempted sends is the
same for every pattern of per-entry send failures, so one failed entry
never prevents the remaining entries from being sent. -/
theorem replay_completeness (subs : List Subscription) (attempts : Nat)
    (sendFail : Subscription → Bool) :
    (stepSup ⟨subs, attempts, .connecting⟩ (.connectOk sendFail)).events
        = [Event.Connected] ∧
    (stepSup ⟨subs, attempts, .connecting⟩ (.connectOk sendFail)).sent
        = subs.map Outgoing.Subscribe := by
  exact ⟨rfl, replay_sends sendFail subs⟩

/-- C2 (code bug): the backoff delay follows 500·2^k capped at 5000 only
while 500·2^k is computed without u64 overflow.  The claimed sequence holds
up to attempt 61 (every value from attempt 4 on is capped at 5000), but at
the 63rd consecutive failure (reconnect_attempts = 62) the wrapping
multiplication gives 500·2^62 mod 2^64 = 0, so the computed delay is 0 ms:
the sequence 5000, 5000, …, 5000, 0 is not non-decreasing and is not what
the comment in the code (500ms, 1s, 2s, 4s, 5s capped) documents.  The
reset of the attempt counter on a successful connect does hold. -/
theorem backoff_overflow_at_62 :
    delayMs 0 = 500 ∧ delayMs 1 = 1000 ∧ delayMs 2 = 2000 ∧
    delayMs 3 = 4000 ∧ delayMs 4 = 5000 ∧ delayMs 5 = 5000 ∧
    delayMs 61 = 5000 ∧ delayMs 62 = 0 ∧ delayMs 63 = 0 ∧
    specDelayMs 62 = 5000 ∧
    (stepSup ⟨[], 7, .connecting⟩ (.connectOk (fun _ => false))).state.attempts
      = 0 ∧
    (stepSup ⟨[], 7, .connecting⟩ .connectFail).state.attempts = 8 := by
  refine ⟨by decide, by decide, by decide, by decide, by decide, by decide,
    ?_, ?_, ?_, by decide, rfl, by decide⟩
  · decide
  · decide
  · decide

/-- C3 counterexample: a Ping directive whose send fails while Connected
(tick with missed_pongs = 0 and a failing ping send) does not cause the
Connected → Disconnected transition: the Ping send is attempted, no event
is emitted, and the supervisor stays in the Connected state with the
counter unchanged. -/
theorem ping_send_failure_no_disconnect :
    (stepSup ⟨[], 0, .connected 0⟩ (.tick false)).sent = [Outgoing.Ping] ∧
    (stepSup ⟨[], 0, .connected 0⟩ (.tick false)).events = [] ∧
    (stepSup ⟨[], 0, .connected 0⟩ (.tick false)).state.phase
      = .connected 0 := by
  refine ⟨by decide, by decide, by decide⟩

/-- C3 amended: only Subscribe and Unsubscribe send failures while
Connected cause the Connected → Disconnected transition (emitting
Disconnected and re-entering connecting, exactly like an end of stream); a
failed Ping send is ignored except that the missed-pong counter is not
incremented, and the result of the Pong reply send is discarded entirely
(the step does not depend on it). -/
theorem directive_send_failure_amended (subs : List Subscription)
    (a missed : Nat) (s : Subscription) :
    (s ∉ subs →
      (stepSup ⟨subs, a, .connected missed⟩
          (.cmdRecv (some (true, s)) false)).events = [Event.Disconnected] ∧
      (stepSup ⟨subs, a, .connected missed⟩
          (.cmdRecv (some (true, s)) false)).state.phase = .connecting) ∧
    (s ∈ subs →
      (stepSup ⟨subs, a, .connected missed⟩
          (.cmdRecv (some (false, s)) false)).events = [Event.Disconnected] ∧
      (stepSup ⟨subs, a, .connected missed⟩
          (.cmdRecv (some (false, s)) false)).state.phase = .connecting) ∧
    ((stepSup ⟨subs, a, .connected missed⟩ (.streamItem none true)).events
      = [Event.Disconnected]) ∧
    (missed < MAX_MISSED_PONGS →
      (stepSup ⟨subs, a, .connected missed⟩ (.tick false)).events = [] ∧
      (stepSup ⟨subs, a, .connected missed⟩ (.tick false)).state.phase
        = .connected missed) ∧
    (stepSup ⟨subs, a, .connected missed⟩ (.streamItem (some .Ping) false)
      = stepSup ⟨subs, a, .connected missed⟩ (.streamItem (some .Ping) true)) := by
  refine ⟨?_, ?_, rfl, ?_, rfl⟩
  · intro h
    simp [stepSup, regInsert, h]
  · intro h
    simp [stepSup, regRemove, h]
  · intro h
    have h2 : ¬ MAX_MISSED_PONGS ≤ missed := Nat.not_le.mpr h
    constructor
    · simp [stepSup, h2]
    · simp [stepSup, h2]

/-- Witness for the amended C3 theorem at a concrete subscription, registry
and counter value. -/
theorem directive_send_failure_amended_witness :
    (stepSup ⟨[], 0, .connected 0⟩
        (.cmdRecv (some (true, Subscription.Trades "BTC")) false)).events
      = [Event.Disconnected] ∧
    (stepSup ⟨[Subscription.Trades "BTC"], 0, .connected 0⟩
        (.cmdRecv (some (false, Subscription.Trades "BTC")) false)).events
      = [Event.Disconnected] ∧
    (stepSup ⟨[], 0, .connected 1⟩ (.tick false)).events = [] :=
  ⟨((directive_send_failure_amended [] 0 0 (.Trades "BTC")).1
      (by decide)).1,
   ((directive_send_failure_amended [Subscription.Trades "BTC"] 0 0
      (.Trades "BTC")).2.1 (by decide)).1,
   ((directive_send_failure_amended [] 0 1 (.Trades "BTC")).2.2.2.1
      (by decide)).1⟩

/-- While the supervisor is in the connecting phase and every connect
attempt fails, it stays in the connecting phase: the command channel is
never polled there. -/
lemma connectFail_keeps_connecting :
    ∀ (n : Nat) (subs : List Subscription) (a : Nat),
      (runSup ⟨subs, a, .connecting⟩
          (List.replicate n .connectFail)).1.phase = .connecting := by
  intro n
  induction n with
  | zero => intro subs a; rfl
  | succ n ih =>
    intro subs a
    simpa [List.replicate, runSup, stepSup] using ih subs (nextAttempts a)

/-- C4 counterexample: starting from the initial state with the command
channel already closed (the handle dropped), in an environment where every
connect attempt fails, the supervisor never reaches the done phase: it
never polls the command channel while connecting or backing off, so the
background task never terminates. -/
theorem handle_drop_never_exits :
    ¬ ∃ n : Nat,
      (runSup initState (List.replicate n .connectFail)).1.phase
        = .done := by
  rintro ⟨n, h⟩
  rw [show initState = ⟨[], 0, .connecting⟩ from rfl,
    connectFail_keeps_connecting n [] 0] at h
  exact Phase.noConfusion h

/-- C4 amended: the task observes closure of the command channel only from
the Connected state: there, a poll of the closed channel makes it return at
once (done phase, nothing further emitted or sent), and from the connecting
phase it exits after the next successful connect; but while connect
attempts keep failing the command channel is not polled and the task does
not terminate. -/
theorem handle_drop_amended (subs : List Subscription) (a missed : Nat)
    (ok : Bool) (f : Subscription → Bool) :
    (stepSup ⟨subs, a, .connected missed⟩ (.cmdRecv none ok)).state.phase
      = .done ∧
    (stepSup ⟨subs, a, .connected missed⟩ (.cmdRecv none ok)).events = [] ∧
    (stepSup ⟨subs, a, .connected missed⟩ (.cmdRecv none ok)).sent = [] ∧
    (runSup ⟨subs, a, .connecting⟩
        [.connectOk f, .cmdRecv none ok]).1.phase = .done := by
  exact ⟨rfl, rfl, rfl, rfl⟩

/-- C5: the liveness monitor contract.  On a heartbeat tick with the
missed-pong counter at the threshold MAX_MISSED_PONGS = 2 the supervisor
breaks out of the Connected state (emitting Disconnected, re-entering
connecting) without sending another ping; below the threshold it sends a
Ping and increments the counter exactly when the send succeeds; an inbound
Pong resets the counter to zero; and a connect followed by three ticks with
no Pong in between produces Connected then Disconnected followed by a new
connect attempt — two full heartbeat intervals without a Pong — although
the socket reported no error. -/
theorem liveness_monitor (subs : List Subscription) (a missed : Nat)
    (ok : Bool) (f : Subscription → Bool) :
    (MAX_MISSED_PONGS ≤ missed →
      (stepSup ⟨subs, a, .connected missed⟩ (.tick ok)).sent = [] ∧
      (stepSup ⟨subs, a, .connected missed⟩ (.tick ok)).events
        = [Event.Disconnected] ∧
      (stepSup ⟨subs, a, .connected missed⟩ (.tick ok)).state.phase
        = .connecting) ∧
    (missed < MAX_MISSED_PONGS →
      (stepSup ⟨subs, a, .connected missed⟩ (.tick ok)).sent
        = [Outgoing.Ping] ∧
      (stepSup ⟨subs, a, .connected missed⟩ (.tick ok)).state.phase
        = .connected (if ok then missed + 1 else missed)) ∧
    ((stepSup ⟨subs, a, .connected missed⟩
        (.streamItem (some .Pong) ok)).state.phase = .connected 0) ∧
    ((runSup ⟨subs, a, .connecting⟩
        [.connectOk f, .tick true, .tick true, .tick true]).2.1
      = [Event.Connected, Event.Disconnected]) ∧
    ((runSup ⟨subs, a, .connecting⟩
        [.connectOk f, .tick true, .tick true, .tick true]).1.phase
      = .connecting) := by
  refine ⟨?_, ?_, rfl, rfl, rfl⟩
  · intro h
    exact ⟨by simp [stepSup, h], by simp [stepSup, h], by simp [stepSup, h]⟩
  · intro h
    have h2 : ¬ MAX_MISSED_PONGS ≤ missed := Nat.not_le.mpr h
    exact ⟨by simp [stepSup, h2], by simp [stepSup, h2]⟩

/-- Witness for the liveness monitor theorem: at the threshold the tick
emits Disconnected without a ping; below it, a successful ping send
increments the counter. -/
theorem liveness_monitor_witness :
    (stepSup ⟨[], 0, .connected 2⟩ (.tick true)).events
      = [Event.Disconnected] ∧
    (stepSup ⟨[], 0, .connected 0⟩ (.tick true)).state.phase
      = .connected 1 := by
  constructor
  · exact ((liveness_monitor [] 0 2 true (fun _ => false)).1 (by decide)).2.1
  · have h :=
      ((liveness_monitor [] 0 0 true (fun _ => false)).2.1 (by decide)).2
    simpa using h

/-- C6: idempotence of subscription commands while Connected.  A subscribe
command for an already-tracked Subscription is a complete no-op (no
directive sent, state unchanged); an unsubscribe for a non-tracked
Subscription is likewise a no-op; and two subscribe commands for the same
previously untracked Subscription put exactly one Subscribe directive on
the wire in total. -/
theorem subscription_idempotence (subs : List Subscription) (a missed : Nat)
    (s : Subscription) (ok : Bool) :
    (s ∈ subs →
      stepSup ⟨subs, a, .connected missed⟩ (.cmdRecv (some (true, s)) ok)
        = ⟨⟨subs, a, .connected missed⟩, [], []⟩) ∧
    (s ∉ subs →
      stepSup ⟨subs, a, .connected missed⟩ (.cmdRecv (some (false, s)) ok)
        = ⟨⟨subs, a, .connected missed⟩, [], []⟩) ∧
    (s ∉ subs →
      (runSup ⟨subs, a, .connected missed⟩
          [.cmdRecv (some (true, s)) true,
           .cmdRecv (some (true, s)) true]).2.2
        = [Outgoing.Subscribe s]) := by
  refine ⟨?_, ?_, ?_⟩
  · intro h; simp [stepSup, regInsert, h]
  · intro h; simp [stepSup, regRemove, h]
  · intro h; simp [runSup, stepSup, regInsert, h]

/-- Witness for the idempotence theorem at a concrete subscription. -/
theorem subscription_idempotence_witness :
    (stepSup ⟨[Subscription.Trades "BTC"], 0, .connected 0⟩
        (.cmdRecv (some (true, Subscription.Trades "BTC")) true)
      = ⟨⟨[Subscription.Trades "BTC"], 0, .connected 0⟩, [], []⟩) ∧
    ((runSup ⟨[], 0, .connected 0⟩
        [.cmdRecv (some (true, Subscription.Trades "BTC")) true,
         .cmdRecv (some (true, Subscription.Trades "BTC")) true]).2.2
      = [Outgoing.Subscribe (Subscription.Trades "BTC")]) :=
  ⟨(subscription_idempotence [Subscription.Trades "BTC"] 0 0
      (.Trades "BTC") true).1 (by decide),
   (subscription_idempotence [] 0 0 (.Trades "BTC") true).2.2 (by decide)⟩

/-- C7: the registry changes only when a subscribe/unsubscribe command is
processed — every input that is not a command (connect success or failure
with its replay, heartbeat tick, any stream item, disconnect, channel
closure) leaves the registry untouched, so in particular it is never
cleared on disconnect — and a command grows the registry by the subscribed
value respectively shrinks it by the unsubscribed value. -/
theorem registry_persistence :
    (∀ (st : SupState) (inp : Input), inp.isCmd = false →
      (stepSup st inp).state.subs = st.subs) ∧
    (∀ (subs : List Subscription) (a missed : Nat) (s : Subscription)
        (ok : Bool),
      (stepSup ⟨subs, a, .connected missed⟩
          (.cmdRecv (some (true, s)) ok)).state.subs
        = if s ∈ subs then subs else subs ++ [s]) ∧
    (∀ (subs : List Subscription) (a missed : Nat) (s : Subscription)
        (ok : Bool),
      (stepSup ⟨subs, a, .connected missed⟩
          (.cmdRecv (some (false, s)) ok)).state.subs
        = if s ∈ subs then subs.erase s else subs) := by
  refine ⟨?_, ?_, ?_⟩
  · intro st inp h
    obtain ⟨subs, a, phase⟩ := st
    cases inp with
    | connectFail => cases phase <;> rfl
    | connectOk f => cases phase <;> rfl
    | tick ok =>
      cases phase with
      | connecting => rfl
      | connected m =>
        by_cases h2 : MAX_MISSED_PONGS ≤ m <;> simp [stepSup, h2]
      | done => rfl
    | streamItem item pok =>
      cases phase with
      | connecting => rfl
      | connected m =>
        cases item with
        | none => rfl
        | some msg => cases msg <;> rfl
      | done => rfl
    | cmdRecv cmd ok =>
      cases cmd with
      | none => cases phase <;> rfl
      | some p => simp [Input.isCmd] at h
  · intro subs a missed s ok
    by_cases h2 : s ∈ subs <;> cases ok <;>
      simp [stepSup, regInsert, h2]
  · intro subs a missed s ok
    by_cases h2 : s ∈ subs <;> cases ok <;>
      simp [stepSup, regRemove, h2]

/-- Witness for the registry persistence theorem: a disconnect (end of
stream) leaves a nonempty registry untouched, and a subscribe command grows
it. -/
theorem registry_persistence_witness :
    ((stepSup ⟨[Subscription.Trades "BTC"], 0, .connected 1⟩
        (.streamItem none true)).state.subs
      = [Subscription.Trades "BTC"]) ∧
    ((stepSup ⟨[], 0, .connected 0⟩
        (.cmdRecv (some (true, Subscription.Trades "BTC")) true)).state.subs
      = if Subscription.Trades "BTC" ∈ ([] : List Subscription)
          then [] else [] ++ [Subscription.Trades "BTC"]) :=
  ⟨registry_persistence.1 ⟨[Subscription.Trades "BTC"], 0, .connected 1⟩
      (.streamItem none true) rfl,
   registry_persistence.2.1 [] 0 0 (.Trades "BTC") true⟩

/-- C8: decode resilience.  A frame that fails to decode is skipped by the
stream poll, which continues with the remaining frames (so a malformed
frame neither ends the stream nor swallows the following valid frame); a
frame with an unrecognized discriminator decodes to the catch-all Unknown
variant and is returned as a message; and the supervisor forwards an
Unknown message to the consumer as an Output Event while staying
Connected. -/
theorem decode_resilience (bad : Frame) (rest : List Frame) (r pay : String)
    (subs : List Subscription) (a missed : Nat) (pok : Bool) :
    (decode bad = none → pollNext (bad :: rest) = pollNext rest) ∧
    (pollNext (Frame.unrecognized r :: rest)
      = some (Incoming.Unknown r, rest)) ∧
    (pollNext (Frame.malformed pay :: Frame.unrecognized r :: rest)
      = some (Incoming.Unknown r, rest)) ∧
    ((stepSup ⟨subs, a, .connected missed⟩
        (.streamItem (some (.Unknown r)) pok)).events
      = [Event.Message (.Unknown r)]) ∧
    ((stepSup ⟨subs, a, .connected missed⟩
        (.streamItem (some (.Unknown r)) pok)).state.phase
      = .connected missed) := by
  refine ⟨?_, rfl, rfl, rfl, rfl⟩
  intro h
  simp [pollNext, h]

/-- Witness for the decode resilience theorem: a concrete malformed frame
is skipped. -/
theorem decode_resilience_witness :
    pollNext [Frame.malformed "x", Frame.ping]
      = pollNext [Frame.ping] :=
  (decode_resilience (Frame.malformed "x") [Frame.ping] "r" "p" [] 0 0
    true).1 rfl

/-- True exactly for Incoming::Ping (an inbound Ping triggers the immediate
Pong reply in ws.rs lines 449-451). -/
def Incoming.isPing : Incoming → Bool
  | .Ping => true
  | _ => false

/-- The missed-pong counter after a sequence of inbound messages: every
Pong resets it to zero, everything else leaves it alone. -/
def missedAfter (missed : Nat) : List Incoming → Nat
  | [] => missed
  | .Pong :: rest => missedAfter 0 rest
  | _ :: rest => missedAfter missed rest

/-- Running the supervisor over a pure sequence of inbound stream items:
the state stays Connected with the counter folded over the pongs, the
events are exactly the non-internal messages wrapped as Message in order,
and the wire sends are exactly one Pong per inbound Ping. -/
lemma stream_run (subs : List Subscription) (a : Nat) (pok : Bool) :
    ∀ (ms : List Incoming) (missed : Nat),
      runSup ⟨subs, a, .connected missed⟩
          (ms.map fun m => Input.streamItem (some m) pok)
        = (⟨subs, a, .connected (missedAfter missed ms)⟩,
           (ms.filter fun m => !m.isInternal).map Event.Message,
           (ms.filter fun m => m.isPing).map fun _ => Outgoing.Pong) := by
  intro ms
  induction ms with
  | nil => intro missed; rfl
  | cons m rest ih =>
    intro missed
    cases m <;>
      simp [runSup, stepSup, missedAfter, Incoming.isInternal,
        Incoming.isPing, ih]

/-- C9: message forwarding and ordering.  For any sequence of decoded
inbound messages delivered while Connected, the consumer-visible events are
exactly the non-Ping non-Pong messages, each wrapped as Event::Message, in
the same order with no gaps, reordering or coalescing; Ping and Pong are
consumed internally, each inbound Ping producing one immediate Pong reply
on the wire. -/
theorem message_forwarding_order (subs : List Subscription) (a : Nat)
    (ms : List Incoming) (pok : Bool) :
    ((runSup ⟨subs, a, .connected 0⟩
        (ms.map fun m => Input.streamItem (some m) pok)).2.1
      = (ms.filter fun m => !m.isInternal).map Event.Message) ∧
    ((runSup ⟨subs, a, .connected 0⟩
        (ms.map fun m => Input.streamItem (some m) pok)).2.2
      = (ms.filter fun m => m.isPing).map fun _ => Outgoing.Pong) := by
  rw [stream_run subs a pok ms 0]
  exact ⟨rfl, rfl⟩

/-! ### The event-stream alternation invariant (C10) -/

/-- Whether the last lifecycle event emitted so far is Connected.  In the
connecting phase the supervisor has just emitted Disconnected or nothing
yet; in the connected phase the last lifecycle event is Connected; the done
phase is entered from connected without emitting anything further. -/
def lastOpen : Phase → Bool
  | .connecting => false
  | .connected _ => true
  | .done => true

/-- The alternation automaton over event sequences: from the closed state
only Connected may occur, from the open state only Message or
Disconnected; returns the final open flag, or none when the sequence
violates alternation (which also rules out a Message outside an open
interval and a first event other than Connected). -/
def wfFrom : Bool → List Event → Option Bool
  | b, [] => some b
  | false, .Connected :: rest => wfFrom true rest
  | true, .Disconnected :: rest => wfFrom false rest
  | true, .Message _ :: rest => wfFrom true rest
  | _, _ => none

/-- Acceptance of an event list composes over append. -/
lemma wfFrom_append (l1 l2 : List Event) :
    ∀ b b1 : Bool, wfFrom b l1 = some b1 →
      wfFrom b (l1 ++ l2) = wfFrom b1 l2 := by
  induction l1 with
  | nil =>
    intro b b1 h
    simp [wfFrom] at h
    subst h
    rfl
  | cons e rest ih =>
    intro b b1 h
    cases b <;> cases e <;> simp [wfFrom] at h ⊢ <;> exact ih _ _ h

/-- One supervisor step emits an event fragment accepted by the alternation
automaton, carrying the open flag from the old to the new phase. -/
lemma step_wf (st : SupState) (inp : Input) :
    wfFrom (lastOpen st.phase) (stepSup st inp).events
      = some (lastOpen (stepSup st inp).state.phase) := by
  obtain ⟨subs, a, phase⟩ := st
  cases inp with
  | connectFail => cases phase <;> rfl
  | connectOk f => cases phase <;> rfl
  | tick ok =>
    cases phase with
    | connecting => rfl
    | connected m =>
      by_cases h : MAX_MISSED_PONGS ≤ m <;>
        simp [stepSup, h, wfFrom, lastOpen]
    | done => rfl
  | streamItem item pok =>
    cases phase with
    | connecting => rfl
    | connected m =>
      cases item with
      | none => rfl
      | some msg => cases msg <;> rfl
    | done => rfl
  | cmdRecv cmd ok =>
    cases phase with
    | connecting => rfl
    | connected m =>
      cases cmd with
      | none => rfl
      | some p =>
        obtain ⟨isSub, s⟩ := p
        by_cases h : s ∈ subs <;> cases isSub <;> cases ok <;>
          simp [stepSup, regInsert, regRemove, h, wfFrom, lastOpen]
    | done => rfl

/-- The whole run of the supervisor emits an event sequence accepted by the
alternation automaton started at the open flag of the initial phase. -/
lemma runSup_wf (inps : List Input) :
    ∀ st : SupState,
      wfFrom (lastOpen st.phase) (runSup st inps).2.1
        = some (lastOpen (runSup st inps).1.phase) := by
  induction inps with
  | nil => intro st; simp [runSup, wfFrom]
  | cons i rest ih =>
    intro st
    show wfFrom (lastOpen st.phase)
        ((stepSup st i).events ++ (runSup (stepSup st i).state rest).2.1)
      = some (lastOpen (runSup (stepSup st i).state rest).1.phase)
    rw [wfFrom_append _ _ _ _ (step_wf st i)]
    exact ih (stepSup st i).state

/-- C10: the event-stream alternation invariant.  Over every environment
schedule, the event sequence the supervisor emits from its initial state is
accepted by the alternation automaton started closed: the first event (if
any) is Connected, Connected and Disconnected strictly alternate, and every
Message event lies strictly between a Connected and the next Disconnected —
no Message is ever emitted while the connection is not in the Connected
state. -/
theorem event_alternation (inps : List Input) :
    (wfFrom false (runSup initState inps).2.1).isSome = true := by
  have h := runSup_wf inps initState
  rw [show lastOpen initState.phase = false from rfl] at h
  rw [h]
  rfl

end HypercoreWS
